import Mathlib

/-
  Shallow embedding of the MS-CHAPv2 demo server (src/server/mschap.py and
  src/server/server.py).  Bytes are modelled as `Nat` (with `< 256` stated
  where it matters), byte strings as `List Nat`.  The external primitives
  (hashlib.md5, hashlib.sha1, DES.encrypt_block from the external `des`
  module) are parameters of the protocol functions: every theorem that
  depends on them quantifies over the primitive, constrained only by the
  output-length contract the code relies on.  Python `ValueError` /
  `UnicodeEncodeError` raises are modelled with `Except MSError`.
-/

namespace MSCHAP

/-- Error taxonomy of the protocol core: `InvalidLength` models the
`ValueError` raises on wrong-sized buffers, `InvalidEncoding` the
`UnicodeEncodeError` from `username.encode("ascii")`. -/
inductive MSError where
  | InvalidLength
  | InvalidEncoding
deriving DecidableEq

deriving instance DecidableEq for Except

/-- Fuel-carrying bit counter; `popcountAux n n` counts the set bits of `n`
(structural recursion on the fuel so that it reduces in the kernel). -/
def popcountAux : Nat → Nat → Nat
  | 0, _ => 0
  | _ + 1, 0 => 0
  | fuel + 1, m + 1 => (m + 1) % 2 + popcountAux fuel ((m + 1) / 2)

/-- Number of set bits of `n`, i.e. `bin(n).count("1")` in the source. -/
def popcount (n : Nat) : Nat := popcountAux n n

/-- Translation of `MSCHAPv2._apply_des_parity_to_7bits` (mschap.py 45-53):
mask to 7 bits, count set bits, parity bit is 1 when the count is even,
shift left one and OR the parity bit in, mask to a byte. -/
def applyDesParityTo7bits (b7 : Nat) : Nat :=
  let b := b7 &&& 0x7F
  let ones := popcount b
  let parityBit := if ones % 2 = 0 then 1 else 0
  ((b <<< 1) ||| parityBit) &&& 0xFF

/-- `int.from_bytes(bs, "big")`: big-endian byte list to natural number. -/
def fromBytesBE (bs : List Nat) : Nat := bs.foldl (fun acc b => acc * 256 + b) 0

/-- Translation of `MSCHAPv2.make_des_key_from_7_bytes` (mschap.py 55-74):
reject inputs that are not exactly 7 bytes, read the 7 bytes as a 56-bit
big-endian integer, and emit 8 bytes, byte `i` being the parity-completed
7-bit segment at shift `7*(7-i)`. -/
def make_des_key_from_7_bytes (seven : List Nat) : Except MSError (List Nat) :=
  if seven.length ≠ 7 then .error .InvalidLength
  else
    let key56 := fromBytesBE seven
    .ok ((List.range 8).map fun i =>
      let shift := 7 * (7 - i)
      let segment := (key56 >>> shift) &&& 0x7F
      applyDesParityTo7bits segment)

/-- Reference Key Expansion, written from the spec (§4.3): interpret the 7
bytes as a 56-bit big-endian integer; for output index `i` in `[0..8)` take
the 7-bit group at bit offset `7*(7-i)`; add an odd-parity bit (1 when the
group's set-bit count is even, else 0) by shifting the group left one and
OR-ing the parity bit in. -/
def specKeyExpansion (seven : List Nat) : List Nat :=
  let key56 := fromBytesBE seven
  (List.range 8).map fun i =>
    let group := key56 / 2 ^ (7 * (7 - i)) % 2 ^ 7
    let parityBit := if popcount group % 2 = 0 then 1 else 0
    group * 2 + parityBit

/-- ASCII encoding of a string, `username.encode("ascii")`: the list of
code points, failing with `InvalidEncoding` when a character is not ASCII. -/
def asciiEncode (s : String) : Except MSError (List Nat) :=
  if s.data.all (fun c => c.toNat < 128) then .ok (s.data.map Char.toNat)
  else .error .InvalidEncoding

/-- UTF-16LE encoding of one Unicode scalar value, as Python's
`str.encode("utf-16le")` produces it (surrogate pair for astral points). -/
def utf16leChar (c : Char) : List Nat :=
  let n := c.toNat
  if n < 0x10000 then [n % 256, n / 256]
  else
    let m := n - 0x10000
    let hi := 0xD800 + m / 0x400
    let lo := 0xDC00 + m % 0x400
    [hi % 256, hi / 256, lo % 256, lo / 256]

/-- `password.encode("utf-16le")`. -/
def utf16leEncode (s : String) : List Nat := (s.data.map utf16leChar).flatten

/-- Translation of `MSCHAPv2.nt_password_hash` (mschap.py 16-24): the MD5
digest of the UTF-16LE encoded password; the hash primitive `md5` is a
parameter (the source notes it is substitutable). -/
def nt_password_hash (md5 : List Nat → List Nat) (password : String) : List Nat :=
  md5 (utf16leEncode password)

/-- Translation of `MSCHAPv2.challenge_hash` (mschap.py 26-41): reject
challenges that are not 16 bytes each, then take the first 8 bytes of
`sha1(peer_challenge ++ auth_challenge ++ ascii(username))`. -/
def challenge_hash (sha1 : List Nat → List Nat)
    (peer_challenge auth_challenge : List Nat) (username : String) :
    Except MSError (List Nat) :=
  if peer_challenge.length ≠ 16 ∨ auth_challenge.length ≠ 16 then
    .error .InvalidLength
  else do
    let ub ← asciiEncode username
    .ok ((sha1 (peer_challenge ++ auth_challenge ++ ub)).take 8)

/-- Translation of `MSCHAPv2.challenge_response` (mschap.py 78-99): reject a
challenge that is not 8 bytes or an NT hash that is not 16 bytes; pad the
hash with 5 zero bytes to 21 bytes, and for `i` in `range 3` expand bytes
`[i*7, (i+1)*7)` to a DES key and encrypt the challenge with it, appending
the blocks.  `E block key` is the external `DES.encrypt_block`. -/
def challenge_response (E : List Nat → List Nat → List Nat)
    (challenge8 nt_hash : List Nat) : Except MSError (List Nat) :=
  if challenge8.length ≠ 8 then .error .InvalidLength
  else if nt_hash.length ≠ 16 then .error .InvalidLength
  else
    let z := nt_hash ++ List.replicate 5 0
    (List.range 3).foldlM (fun resp i => do
      let seven := (z.drop (i * 7)).take 7
      let key8 ← make_des_key_from_7_bytes seven
      pure (resp ++ E challenge8 key8)) []

/-- Reference Response Transform, written from the spec (§4.4): append 5
zero bytes to the digest, split the 21 bytes into three consecutive 7-byte
chunks, expand each to a cipher key, encrypt the same challenge once with
each key, and concatenate the three outputs in order. -/
def specResponseTransform (E : List Nat → List Nat → List Nat)
    (challenge8 digest16 : List Nat) : List Nat :=
  let z := digest16 ++ List.replicate 5 0
  let k0 := specKeyExpansion (z.take 7)
  let k1 := specKeyExpansion ((z.drop 7).take 7)
  let k2 := specKeyExpansion ((z.drop 14).take 7)
  E challenge8 k0 ++ E challenge8 k1 ++ E challenge8 k2

/-- Translation of `MSCHAPv2.generate_nt_response` (mschap.py 103-117):
digest of the password, challenge hash, then the response transform. -/
def generate_nt_response (sha1 md5 : List Nat → List Nat)
    (E : List Nat → List Nat → List Nat)
    (auth_challenge peer_challenge : List Nat) (username password : String) :
    Except MSError (List Nat) := do
  let nt_hash := nt_password_hash md5 password
  let chall8 ← challenge_hash sha1 peer_challenge auth_challenge username
  challenge_response E chall8 nt_hash

/-- Translation of `MSCHAPv2.verify_nt_response` (mschap.py 119-140):
return `false` when the received response is not 24 bytes; otherwise
recompute the expected response from the stored hash and compare. -/
def verify_nt_response (sha1 : List Nat → List Nat)
    (E : List Nat → List Nat → List Nat)
    (auth_challenge peer_challenge : List Nat) (username : String)
    (stored_nt_hash received_nt_response : List Nat) : Except MSError Bool :=
  if received_nt_response.length ≠ 24 then .ok false
  else do
    let chall8 ← challenge_hash sha1 peer_challenge auth_challenge username
    let expected ← challenge_response E chall8 stored_nt_hash
    .ok (expected == received_nt_response)

/-- Concrete deterministic stand-in for `hashlib.sha1` (20-byte output),
used only to instantiate theorems at concrete inputs. -/
def sha1Stub (input : List Nat) : List Nat := (input ++ List.range 20).take 20

/-- Concrete deterministic stand-in for `hashlib.md5` (16-byte output). -/
def md5Stub (input : List Nat) : List Nat := (input ++ List.range 16).take 16

/-- Concrete deterministic stand-in for `DES.encrypt_block` (8-byte block
output). -/
def desStub (block key : List Nat) : List Nat :=
  (List.zipWith Nat.xor block key ++ List.replicate 8 0).take 8

/-- State of one server-side session (server.py `AuthSession`): the
username the challenge was issued for, and the 16-byte auth challenge. -/
structure AuthSession where
  username : String
  auth_challenge : List Nat
deriving DecidableEq

/-- The `AuthSessionManager._sessions` dict, as an association list keyed
by session id (keys are unique in the dict; lookups take the first hit). -/
def SessionStore := List (String × AuthSession)

/-- Dict lookup `self._sessions.get(session_id)`. -/
def getSession (st : SessionStore) (sid : String) : Option AuthSession :=
  (List.find? (fun p => p.1 == sid) st).map (fun p => p.2)

/-- `AuthSessionManager.delete_session` (server.py 64-66):
`self._sessions.pop(session_id, None)` — removing an absent id is not an
error. -/
def deleteSession (st : SessionStore) (sid : String) : SessionStore :=
  List.filter (fun p => !(p.1 == sid)) st

/-- Outcome of the `/auth/response` handler: a JSON `AuthResult` body, an
`HTTPException` with its detail string, or an unhandled exception escaping
from the protocol core (HTTP 500). -/
inductive AuthOutcome where
  | result (success : Bool)
  | httpError (detail : String)
  | protoError (e : MSError)
deriving DecidableEq

/-- Translation of the `/auth/response` handler `auth_response`
(server.py 171-225), after transport base64 decoding: look the session up
(else "Invalid session_id"), check the identity matches the session (else
"Username mismatch"), check buffer lengths, look the stored NT hash up in
the database `db` (else "User not found"), verify, and only then delete
the session.  Returns the outcome and the updated session store. -/
def auth_response (sha1 : List Nat → List Nat)
    (E : List Nat → List Nat → List Nat) (db : String → Option (List Nat))
    (st : SessionStore) (session_id username : String)
    (peer_challenge nt_response : List Nat) : AuthOutcome × SessionStore :=
  match getSession st session_id with
  | none => (.httpError "Invalid session_id", st)
  | some sess =>
    if sess.username ≠ username then (.httpError "Username mismatch", st)
    else if peer_challenge.length ≠ 16 ∨ nt_response.length ≠ 24 then
      (.httpError "Wrong lengths", st)
    else
      match db username with
      | none => (.httpError "User not found", st)
      | some stored_nt_hash =>
        match verify_nt_response sha1 E sess.auth_challenge peer_challenge
            username stored_nt_hash nt_response with
        | .error e => (.protoError e, st)
        | .ok ok => (.result ok, deleteSession st session_id)

example : applyDesParityTo7bits 0 = 1 := by decide
example : applyDesParityTo7bits 1 = 2 := by decide
example : make_des_key_from_7_bytes (List.replicate 7 0) =
    .ok [1, 1, 1, 1, 1, 1, 1, 1] := by decide
example : make_des_key_from_7_bytes [1, 2, 3] = .error .InvalidLength := by decide
example : ∀ s : Fin 128,
    applyDesParityTo7bits s.val =
      s.val * 2 + (if popcount s.val % 2 = 0 then 1 else 0) := by decide

example :
    (generate_nt_response sha1Stub md5Stub desStub (List.replicate 16 0)
        (List.replicate 16 1) "u" "pw").bind
      (fun r => verify_nt_response sha1Stub desStub (List.replicate 16 0)
        (List.replicate 16 1) "u" (nt_password_hash md5Stub "pw") r) =
    .ok true := by decide

example :
    verify_nt_response sha1Stub desStub (List.replicate 16 0) [] "u"
      (List.replicate 16 0) (List.replicate 24 0) = .error .InvalidLength := by
  decide

/-- On 7-bit values the parity completion is the arithmetic
`g * 2 + parity` (checked on all 128 cases). -/
lemma applyParity_fin : ∀ s : Fin 128,
    applyDesParityTo7bits s.val =
      s.val * 2 + (if popcount s.val % 2 = 0 then 1 else 0) := by decide

/-- Arithmetic characterisation of the parity completion for `g < 128`. -/
lemma applyParity_arith {g : Nat} (h : g < 128) :
    applyDesParityTo7bits g =
      g * 2 + (if popcount g % 2 = 0 then 1 else 0) :=
  applyParity_fin ⟨g, h⟩

/-- The output of the parity completion always has an odd number of set
bits (checked on all 128 cases of the masked input). -/
lemma applyParity_odd_fin : ∀ s : Fin 128,
    popcount (applyDesParityTo7bits s.val) % 2 = 1 := by decide

/-- The masked segment fed to the parity completion is below 128. -/
lemma segment_lt (x : Nat) : x &&& 0x7F < 128 :=
  Nat.lt_succ_of_le Nat.and_le_right

/-- Shifting and masking is division and remainder. -/
lemma shift_mask_eq (n s : Nat) : (n >>> s) &&& 0x7F = n / 2 ^ s % 2 ^ 7 := by
  rw [Nat.shiftRight_eq_div_pow]
  have : (0x7F : Nat) = 2 ^ 7 - 1 := by norm_num
  rw [this, Nat.and_pow_two_sub_one_eq_mod]

/-- On a 7-byte input, the source key expansion succeeds and produces
exactly the spec's reference expansion. -/
lemma make_des_key_eq {seven : List Nat} (h7 : seven.length = 7) :
    make_des_key_from_7_bytes seven = .ok (specKeyExpansion seven) := by
  unfold make_des_key_from_7_bytes specKeyExpansion
  rw [if_neg (by omega)]
  refine congrArg Except.ok (List.map_congr_left (fun i _ => ?_))
  dsimp only
  rw [shift_mask_eq]
  exact applyParity_arith (Nat.mod_lt _ (by norm_num))

/-- On valid lengths the source response transform succeeds and produces
exactly the spec's reference transform. -/
lemma challenge_response_eq {E : List Nat → List Nat → List Nat}
    {c8 nt : List Nat} (hc : c8.length = 8) (hn : nt.length = 16) :
    challenge_response E c8 nt = .ok (specResponseTransform E c8 nt) := by
  unfold challenge_response specResponseTransform
  rw [if_neg (by omega), if_neg (by omega)]
  dsimp only
  rw [show List.range 3 = [0, 1, 2] from rfl]
  simp only [List.foldlM_cons, List.foldlM_nil]
  have h0 : (List.take 7 (List.drop (0 * 7) (nt ++ List.replicate 5 0))).length = 7 := by
    simp [hn]
  have h1 : (List.take 7 (List.drop (1 * 7) (nt ++ List.replicate 5 0))).length = 7 := by
    simp [hn]
  have h2 : (List.take 7 (List.drop (2 * 7) (nt ++ List.replicate 5 0))).length = 7 := by
    simp [hn]
  rw [make_des_key_eq h0, make_des_key_eq h1, make_des_key_eq h2]
  trans Except.ok
      ((E c8 (specKeyExpansion ((nt ++ List.replicate 5 0).take 7)) ++
        E c8 (specKeyExpansion (((nt ++ List.replicate 5 0).drop 7).take 7))) ++
        E c8 (specKeyExpansion (((nt ++ List.replicate 5 0).drop 14).take 7)))
  · rfl
  · rw [List.append_assoc]

/-- On 16-byte challenges and an ASCII username the source challenge hash
succeeds with the first 8 bytes of the hash of the concatenation. -/
lemma challenge_hash_ok {sha1 : List Nat → List Nat} {peer auth : List Nat}
    {username : String} (hp : peer.length = 16) (ha : auth.length = 16)
    (hascii : ∀ c ∈ username.data, c.toNat < 128) :
    challenge_hash sha1 peer auth username =
      .ok ((sha1 (peer ++ auth ++ username.data.map Char.toNat)).take 8) := by
  unfold challenge_hash asciiEncode
  rw [if_neg (by omega)]
  rw [if_pos (by simpa using hascii)]
  rfl

/-- C5: for every 7-byte input, the source key expansion
`make_des_key_from_7_bytes` equals the reference definition of the spec:
read the 7 bytes as a 56-bit big-endian integer, take the 7-bit group at
bit offset `7*(7-i)` for output index `i` (most-significant group first),
and append an odd-parity bit (1 when the group's set-bit count is even)
to the left-shifted group. -/
theorem key_expansion_matches_spec (seven : List Nat)
    (h7 : seven.length = 7) :
    make_des_key_from_7_bytes seven = .ok (specKeyExpansion seven) :=
  make_des_key_eq h7

theorem key_expansion_matches_spec_witness :
    make_des_key_from_7_bytes [1, 2, 3, 4, 5, 6, 7] =
      .ok (specKeyExpansion [1, 2, 3, 4, 5, 6, 7]) :=
  key_expansion_matches_spec [1, 2, 3, 4, 5, 6, 7] (by decide)

/-- C6: every byte of a key produced by `make_des_key_from_7_bytes` has an
odd number of set bits. -/
theorem key_expansion_odd_parity (seven out : List Nat)
    (h : make_des_key_from_7_bytes seven = .ok out) :
    ∀ b ∈ out, popcount b % 2 = 1 := by
  unfold make_des_key_from_7_bytes at h
  by_cases h7 : seven.length = 7
  · rw [if_neg (by omega)] at h
    cases h
    intro b hb
    obtain ⟨i, _, rfl⟩ := List.mem_map.mp hb
    dsimp only
    exact applyParity_odd_fin ⟨_, segment_lt _⟩
  · rw [if_pos h7] at h
    simp at h

theorem key_expansion_odd_parity_witness : popcount 1 % 2 = 1 :=
  key_expansion_odd_parity (List.replicate 7 0) [1, 1, 1, 1, 1, 1, 1, 1]
    (by decide) 1 (by decide)

/-- C8: each of Challenge Hash, Response Transform and Key Expansion
rejects a wrong-sized buffer with `InvalidLength` (the guard is the first
thing each function does; being pure, it performs no other computation). -/
theorem length_guards (sha1 : List Nat → List Nat)
    (E : List Nat → List Nat → List Nat)
    (peer auth : List Nat) (username : String)
    (challenge8 nt_hash seven : List Nat)
    (h1 : peer.length ≠ 16 ∨ auth.length ≠ 16)
    (h2 : challenge8.length ≠ 8 ∨ nt_hash.length ≠ 16)
    (h3 : seven.length ≠ 7) :
    challenge_hash sha1 peer auth username = .error .InvalidLength ∧
    challenge_response E challenge8 nt_hash = .error .InvalidLength ∧
    make_des_key_from_7_bytes seven = .error .InvalidLength := by
  refine ⟨?_, ?_, ?_⟩
  · unfold challenge_hash
    rw [if_pos h1]
  · unfold challenge_response
    by_cases hc : challenge8.length = 8
    · rw [if_neg (by omega)]
      rcases h2 with h | h
      · exact absurd hc h
      · rw [if_pos h]
    · rw [if_pos hc]
  · unfold make_des_key_from_7_bytes
    rw [if_pos h3]

theorem length_guards_witness :
    challenge_hash sha1Stub [] [] "u" = .error .InvalidLength ∧
    challenge_response desStub [] [] = .error .InvalidLength ∧
    make_des_key_from_7_bytes [] = .error .InvalidLength :=
  length_guards sha1Stub desStub [] [] "u" [] [] []
    (Or.inl (by decide)) (Or.inl (by decide)) (by decide)

/-- C9: the fail-closed behaviour of `verify_nt_response` covers only the
response length: on a 24-byte response with an empty (hence not 16-byte)
peer challenge it propagates `InvalidLength` from the challenge hash
instead of returning `false`, for every hash and cipher primitive. -/
theorem verify_raises_on_bad_challenge_length (sha1 : List Nat → List Nat)
    (E : List Nat → List Nat → List Nat) :
    verify_nt_response sha1 E (List.replicate 16 0) [] "u"
        (List.replicate 16 0) (List.replicate 24 0) =
      .error .InvalidLength ∧
    (List.replicate 24 0 : List Nat).length = 24 ∧
    ([] : List Nat).length ≠ 16 :=
  ⟨rfl, by decide, by decide⟩

/-- C7: for every 8-byte challenge and 16-byte digest, the source response
transform equals the reference definition of the spec: pad the digest with
5 zero bytes to 21 bytes, split into three consecutive 7-byte chunks,
expand each to a cipher key, encrypt the same challenge once with each key
(independently, no chaining) and concatenate the three blocks; being a
pure function of its arguments it is deterministic. -/
theorem response_transform_matches_spec (E : List Nat → List Nat → List Nat)
    (challenge8 digest16 : List Nat)
    (hc : challenge8.length = 8) (hd : digest16.length = 16) :
    challenge_response E challenge8 digest16 =
      .ok (specResponseTransform E challenge8 digest16) :=
  challenge_response_eq hc hd

theorem response_transform_matches_spec_witness :
    challenge_response desStub (List.range 8) (List.range 16) =
      .ok (specResponseTransform desStub (List.range 8) (List.range 16)) :=
  response_transform_matches_spec desStub (List.range 8) (List.range 16)
    (by decide) (by decide)

/-- C2: `verify_nt_response` returns `false` (rather than raising) on any
received response that is not exactly 24 bytes; on a 24-byte response
(with 16-byte challenges, a 16-byte stored digest and an ASCII username)
it returns `true` exactly when the received response equals the expected
response recomputed from the stored digest. -/
theorem verify_response_spec (sha1 : List Nat → List Nat)
    (E : List Nat → List Nat → List Nat)
    (auth peer : List Nat) (username : String) (stored received : List Nat) :
    (received.length ≠ 24 →
      verify_nt_response sha1 E auth peer username stored received =
        .ok false) ∧
    (received.length = 24 → peer.length = 16 → auth.length = 16 →
      stored.length = 16 → (∀ c ∈ username.data, c.toNat < 128) →
      8 ≤ (sha1 (peer ++ auth ++ username.data.map Char.toNat)).length →
      ∃ expected,
      (challenge_hash sha1 peer auth username).bind
          (fun ch => challenge_response E ch stored) = .ok expected ∧
      (verify_nt_response sha1 E auth peer username stored received =
          .ok true ↔ received = expected)) := by
  constructor
  · intro hlen
    unfold verify_nt_response
    rw [if_pos hlen]
  · intro hlen hp ha hstored hascii hsha
    have hch8 : ((sha1 (peer ++ auth ++ username.data.map Char.toNat)).take 8).length = 8 := by
      simp only [List.length_take]
      omega
    refine ⟨specResponseTransform E
      ((sha1 (peer ++ auth ++ username.data.map Char.toNat)).take 8) stored, ?_, ?_⟩
    · rw [challenge_hash_ok hp ha hascii]
      exact challenge_response_eq hch8 hstored
    · unfold verify_nt_response
      rw [if_neg (by omega)]
      rw [challenge_hash_ok hp ha hascii]
      show (challenge_response E _ stored).bind _ = _ ↔ _
      rw [challenge_response_eq hch8 hstored]
      show Except.ok (_ == received) = Except.ok true ↔ _
      constructor
      · intro h
        have := Except.ok.inj h
        exact (beq_iff_eq.mp this).symm
      · intro h
        rw [← h]
        simp

/-- The expected response for the concrete fixture (auth challenge sixteen
0-bytes, peer challenge sixteen 1-bytes, username `"u"`, stored digest
sixteen 2-bytes) under the stub primitives. -/
def expectedFixture : List Nat :=
  specResponseTransform desStub
    ((sha1Stub (List.replicate 16 1 ++ List.replicate 16 0 ++ [117])).take 8)
    (List.replicate 16 2)

theorem verify_response_spec_witness :
    verify_nt_response sha1Stub desStub (List.replicate 16 0)
      (List.replicate 16 1) "u" (List.replicate 16 2) (List.replicate 23 0) =
      .ok false ∧
    verify_nt_response sha1Stub desStub (List.replicate 16 0)
      (List.replicate 16 1) "u" (List.replicate 16 2) expectedFixture =
      .ok true := by
  constructor
  · exact (verify_response_spec sha1Stub desStub (List.replicate 16 0)
      (List.replicate 16 1) "u" (List.replicate 16 2)
      (List.replicate 23 0)).1 (by decide)
  · obtain ⟨expected, hpipe, hiff⟩ :=
      (verify_response_spec sha1Stub desStub (List.replicate 16 0)
        (List.replicate 16 1) "u" (List.replicate 16 2) expectedFixture).2
        (by decide) (by decide) (by decide) (by decide) (by decide) (by decide)
    have h0 : (challenge_hash sha1Stub (List.replicate 16 1)
        (List.replicate 16 0) "u").bind
        (fun ch => challenge_response desStub ch (List.replicate 16 2)) =
        .ok expectedFixture := by decide
    rw [h0] at hpipe
    exact hiff.mpr (Except.ok.inj hpipe)

/-- C1: round trip — for 16-byte challenges, an ASCII username, and any
password, verifying (with the stored digest of that password) the response
that `generate_nt_response` produced for the same four inputs yields
`true`; the hash and cipher primitives are arbitrary subject to their
output-length contracts (SHA-1 at least 8 bytes, MD5 exactly 16, the
block cipher 8). -/
theorem roundtrip_verify_generate (sha1 md5 : List Nat → List Nat)
    (E : List Nat → List Nat → List Nat) (auth peer : List Nat)
    (username password : String)
    (ha : auth.length = 16) (hp : peer.length = 16)
    (hascii : ∀ c ∈ username.data, c.toNat < 128)
    (hsha : ∀ x, 8 ≤ (sha1 x).length)
    (hmd5 : ∀ x, (md5 x).length = 16)
    (hE : ∀ b k, (E b k).length = 8) :
    (generate_nt_response sha1 md5 E auth peer username password).bind
      (verify_nt_response sha1 E auth peer username
        (nt_password_hash md5 password)) = .ok true := by
  have hch8 : ((sha1 (peer ++ auth ++ username.data.map Char.toNat)).take 8).length = 8 := by
    have := hsha (peer ++ auth ++ username.data.map Char.toNat)
    simp only [List.length_take]
    omega
  have hnt : (nt_password_hash md5 password).length = 16 := hmd5 _
  have hrlen : (specResponseTransform E
      ((sha1 (peer ++ auth ++ username.data.map Char.toNat)).take 8)
      (nt_password_hash md5 password)).length = 24 := by
    unfold specResponseTransform
    simp [hE]
  unfold generate_nt_response
  dsimp only
  rw [challenge_hash_ok hp ha hascii]
  show (challenge_response E _ _).bind _ = _
  rw [challenge_response_eq hch8 hnt]
  show verify_nt_response sha1 E auth peer username _ _ = _
  unfold verify_nt_response
  rw [if_neg (by omega)]
  rw [challenge_hash_ok hp ha hascii]
  show (challenge_response E _ _).bind _ = _
  rw [challenge_response_eq hch8 hnt]
  show Except.ok (_ == _) = _
  simp

theorem roundtrip_verify_generate_witness :
    (generate_nt_response sha1Stub md5Stub desStub (List.replicate 16 0)
        (List.replicate 16 1) "alice" "Secret123").bind
      (verify_nt_response sha1Stub desStub (List.replicate 16 0)
        (List.replicate 16 1) "alice"
        (nt_password_hash md5Stub "Secret123")) = .ok true :=
  roundtrip_verify_generate sha1Stub md5Stub desStub (List.replicate 16 0)
    (List.replicate 16 1) "alice" "Secret123" (by decide) (by decide)
    (by decide)
    (fun x => by simp [sha1Stub, List.length_take])
    (fun x => by simp [md5Stub, List.length_take])
    (fun b k => by simp [desStub, List.length_take])

/-- Bind on a success value reduces to the continuation. -/
lemma bind_ok_eq {ε α β : Type} (x : α) (f : α → Except ε β) :
    (Except.ok x >>= f) = f x := rfl

/-- Bind on an error propagates the error. -/
lemma bind_error_eq {ε α β : Type} (e : ε) (f : α → Except ε β) :
    ((Except.error e : Except ε α) >>= f) = Except.error e := rfl

/-- Flipping a bit changes the number. -/
lemma xor_shift_ne (x b : Nat) : x ^^^ (1 <<< b) ≠ x := by
  intro h
  have h2 : (x ^^^ (1 <<< b)) ^^^ x = 0 := by rw [h]; exact Nat.xor_self x
  rw [Nat.xor_comm x (1 <<< b), Nat.xor_assoc, Nat.xor_self, Nat.xor_zero] at h2
  have : (0 : Nat) < 1 <<< b := by
    rw [Nat.one_shiftLeft]
    exact Nat.pos_pow_of_pos b (by omega)
  omega

/-- C3: if `verify_nt_response` accepts a response, then flipping any
single bit of that response (bit `b` of byte `i`) makes it return
`false` with the same other arguments. -/
theorem verify_response_tamper (sha1 : List Nat → List Nat)
    (E : List Nat → List Nat → List Nat)
    (auth peer : List Nat) (username : String) (stored received : List Nat)
    (h : verify_nt_response sha1 E auth peer username stored received =
      .ok true) (i b : Nat) (hi : i < 24) (_hb : b < 8) :
    verify_nt_response sha1 E auth peer username stored
      (received.set i (received.getD i 0 ^^^ (1 <<< b))) = .ok false := by
  by_cases hlen : received.length = 24
  case neg =>
    exfalso
    unfold verify_nt_response at h
    rw [if_pos hlen] at h
    simp at h
  unfold verify_nt_response at h ⊢
  rw [if_neg (not_not_intro hlen)] at h
  cases hch : challenge_hash sha1 peer auth username with
  | error e =>
    rw [hch, bind_error_eq] at h
    simp at h
  | ok ch =>
    rw [hch, bind_ok_eq] at h
    cases hcr : challenge_response E ch stored with
    | error e =>
      rw [hcr, bind_error_eq] at h
      simp at h
    | ok expected =>
      rw [hcr, bind_ok_eq] at h
      have hexp : expected = received := beq_iff_eq.mp (Except.ok.inj h)
      have hset24 : (received.set i (received.getD i 0 ^^^ (1 <<< b))).length = 24 := by
        simp only [List.length_set]
        exact hlen
      rw [if_neg (not_not_intro hset24)]
      rw [bind_ok_eq, hcr, bind_ok_eq]
      have hi' : i < received.length := by omega
      have hne : expected ≠ received.set i (received.getD i 0 ^^^ (1 <<< b)) := by
        rw [hexp]
        intro heq
        have hisl : i < (received.set i (received.getD i 0 ^^^ (1 <<< b))).length := by
          simp only [List.length_set]
          omega
        have h1 : (received.set i (received.getD i 0 ^^^ (1 <<< b))).getD i 0 =
            received.getD i 0 ^^^ (1 <<< b) := by
          rw [List.getD_eq_getElem _ _ hisl]
          exact List.getElem_set_self hisl
        rw [← heq] at h1
        exact xor_shift_ne _ b h1.symm
      rw [beq_eq_false_iff_ne.mpr hne]

theorem verify_response_tamper_witness :
    verify_nt_response sha1Stub desStub (List.replicate 16 0)
      (List.replicate 16 1) "u" (List.replicate 16 2)
      ((specResponseTransform desStub
          ((sha1Stub (List.replicate 16 1 ++ List.replicate 16 0 ++
            [117])).take 8) (List.replicate 16 2)).set 0
        ((specResponseTransform desStub
          ((sha1Stub (List.replicate 16 1 ++ List.replicate 16 0 ++
            [117])).take 8) (List.replicate 16 2)).getD 0 0 ^^^ (1 <<< 0))) =
      .ok false :=
  verify_response_tamper sha1Stub desStub (List.replicate 16 0)
    (List.replicate 16 1) "u" (List.replicate 16 2)
    (specResponseTransform desStub
      ((sha1Stub (List.replicate 16 1 ++ List.replicate 16 0 ++
        [117])).take 8) (List.replicate 16 2))
    (by decide) 0 0 (by decide) (by decide)

/-- A one-session store, as after `open_challenge` for `"alice"`. -/
def st0 : SessionStore := [("sid1", ⟨"alice", List.replicate 16 0⟩)]

/-- A credential store knowing only `"alice"`. -/
def db0 : String → Option (List Nat) :=
  fun u => if u = "alice" then some (List.replicate 16 3) else none

/-- A 16-byte peer challenge fixture. -/
def peer0 : List Nat := List.replicate 16 1

/-- A 24-byte response fixture. -/
def resp0 : List Nat := List.replicate 24 0

/-- C4 counterexample: with a session open for `"alice"`, a `complete`
call presenting identity `"bob"` is rejected, but the handler raises
before reaching `delete_session` (server.py 183-185 vs 218), so the store
is unchanged and a second call with the same session identifier is again
rejected with the username mismatch — not with the missing-session
error — contradicting the claim that the session is consumed. -/
theorem auth_mismatch_counterexample :
    (auth_response sha1Stub desStub db0 st0 "sid1" "bob" peer0 resp0).1 =
      .httpError "Username mismatch" ∧
    (auth_response sha1Stub desStub db0 st0 "sid1" "bob" peer0 resp0).2 = st0 ∧
    (auth_response sha1Stub desStub db0
        (auth_response sha1Stub desStub db0 st0 "sid1" "bob" peer0 resp0).2
        "sid1" "bob" peer0 resp0).1 ≠ .httpError "Invalid session_id" := by
  refine ⟨rfl, rfl, ?_⟩
  intro h
  exact absurd h (by decide)

/-- C4 (amended): when `complete` is called with an identity different
from the one the session was opened for, the result is the
username-mismatch failure, but the session is NOT consumed: the session
store is returned unchanged, so a later call with the same session
identifier does not fail with the missing-session error. -/
theorem auth_mismatch_keeps_session (sha1 : List Nat → List Nat)
    (E : List Nat → List Nat → List Nat) (db : String → Option (List Nat))
    (st : SessionStore) (sid username : String) (peer resp : List Nat)
    (sess : AuthSession) (hfind : getSession st sid = some sess)
    (hmm : sess.username ≠ username) :
    auth_response sha1 E db st sid username peer resp =
      (.httpError "Username mismatch", st) := by
  unfold auth_response
  rw [hfind]
  dsimp only
  rw [if_pos hmm]

theorem auth_mismatch_keeps_session_witness :
    auth_response sha1Stub desStub db0 st0 "sid1" "bob" peer0 resp0 =
      (.httpError "Username mismatch", st0) :=
  auth_mismatch_keeps_session sha1Stub desStub db0 st0 "sid1" "bob" peer0
    resp0 ⟨"alice", List.replicate 16 0⟩ rfl (by decide)

/-- Big-endian accumulation with a seed splits into the seed's
contribution and the tail's value. -/
lemma foldl_base_acc (l : List Nat) : ∀ acc : Nat,
    l.foldl (fun a b => a * 256 + b) acc =
      acc * 256 ^ l.length + l.foldl (fun a b => a * 256 + b) 0 := by
  induction l with
  | nil => intro acc; simp
  | cons a t ih =>
    intro acc
    rw [List.foldl_cons, List.foldl_cons, ih (acc * 256 + a), ih (0 * 256 + a)]
    have : (0 : Nat) * 256 + a = a := by omega
    rw [this, List.length_cons, pow_succ]
    ring

/-- Peeling one byte off a big-endian value. -/
lemma fromBytesBE_cons (a : Nat) (l : List Nat) :
    fromBytesBE (a :: l) = a * 256 ^ l.length + fromBytesBE l := by
  unfold fromBytesBE
  rw [List.foldl_cons, foldl_base_acc]
  norm_num

/-- A list of bytes denotes a value below `256 ^ length`. -/
lemma fromBytesBE_lt : ∀ {l : List Nat}, (∀ b ∈ l, b < 256) →
    fromBytesBE l < 256 ^ l.length := by
  intro l
  induction l with
  | nil => intro _; simp [fromBytesBE]
  | cons a t ih =>
    intro hb
    rw [fromBytesBE_cons]
    have ha : a < 256 := hb a (by simp)
    have ht := ih (fun b hb' => hb b (by simp [hb']))
    have hp : 256 ^ (a :: t).length = 256 * 256 ^ t.length := by
      rw [List.length_cons, pow_succ]; ring
    rw [hp]
    have h1 : (a + 1) * 256 ^ t.length = a * 256 ^ t.length + 256 ^ t.length := by
      ring
    have h2 : (a + 1) * 256 ^ t.length ≤ 256 * 256 ^ t.length :=
      Nat.mul_le_mul_right _ (by omega)
    omega

/-- Big-endian decoding is injective on byte lists of equal length. -/
lemma fromBytesBE_inj : ∀ {s t : List Nat}, s.length = t.length →
    (∀ b ∈ s, b < 256) → (∀ b ∈ t, b < 256) →
    fromBytesBE s = fromBytesBE t → s = t := by
  intro s
  induction s with
  | nil =>
    intro t hlen _ _ _
    cases t with
    | nil => rfl
    | cons c t => simp at hlen
  | cons a s ih =>
    intro t hlen hbs hbt heq
    cases t with
    | nil => simp at hlen
    | cons c t =>
      have hlen' : s.length = t.length := by simpa using hlen
      rw [fromBytesBE_cons, fromBytesBE_cons, hlen'] at heq
      have hs' : fromBytesBE s < 256 ^ t.length := by
        have := fromBytesBE_lt (fun b hb => hbs b (List.mem_cons_of_mem _ hb))
        rwa [hlen'] at this
      have ht' : fromBytesBE t < 256 ^ t.length :=
        fromBytesBE_lt (fun b hb => hbt b (List.mem_cons_of_mem _ hb))
      have hP : 0 < 256 ^ t.length := by positivity
      have h1 : (a * 256 ^ t.length + fromBytesBE s) / 256 ^ t.length = a := by
        rw [Nat.mul_comm a _, Nat.mul_add_div hP, Nat.div_eq_of_lt hs',
          Nat.add_zero]
      have h2 : (c * 256 ^ t.length + fromBytesBE t) / 256 ^ t.length = c := by
        rw [Nat.mul_comm c _, Nat.mul_add_div hP, Nat.div_eq_of_lt ht',
          Nat.add_zero]
      rw [heq, h2] at h1
      subst h1
      have htail : fromBytesBE s = fromBytesBE t := by omega
      rw [ih hlen' (fun b hb => hbs b (List.mem_cons_of_mem _ hb))
        (fun b hb => hbt b (List.mem_cons_of_mem _ hb)) htail]

/-- Two numbers below `B ^ k` with the same `k` base-`B` digits are
equal. -/
lemma digits_ext (B : Nat) (_hB : 0 < B) : ∀ (k n m : Nat), n < B ^ k →
    m < B ^ k → (∀ j, j < k → n / B ^ j % B = m / B ^ j % B) → n = m := by
  intro k
  induction k with
  | zero =>
    intro n m hn hm _
    simp at hn hm
    omega
  | succ k ih =>
    intro n m hn hm hd
    have h0 : n % B = m % B := by
      have := hd 0 (by omega)
      simpa using this
    have hdiv : n / B = m / B := by
      apply ih
      · rw [pow_succ, Nat.mul_comm] at hn
        exact Nat.div_lt_of_lt_mul hn
      · rw [pow_succ, Nat.mul_comm] at hm
        exact Nat.div_lt_of_lt_mul hm
      · intro j hj
        rw [Nat.div_div_eq_div_mul, Nat.div_div_eq_div_mul]
        have hBB : B * B ^ j = B ^ (j + 1) := (pow_succ' B j).symm
        rw [hBB]
        exact hd (j + 1) (by omega)
    have e1 := Nat.div_add_mod n B
    have e2 := Nat.div_add_mod m B
    rw [hdiv, h0] at e1
    omega

/-- The parity completion is injective on 7-bit values. -/
lemma applyParity_injOn {g1 g2 : Nat} (h1 : g1 < 128) (h2 : g2 < 128)
    (h : applyDesParityTo7bits g1 = applyDesParityTo7bits g2) : g1 = g2 := by
  rw [applyParity_arith h1, applyParity_arith h2] at h
  split_ifs at h <;> omega

/-- C10: Key Expansion is injective — two distinct 7-byte inputs yield
distinct keys, because the 56 input bits are recoverable from the high 7
bits of each output byte. -/
theorem key_expansion_injective (s t : List Nat)
    (hs7 : s.length = 7) (ht7 : t.length = 7)
    (hs : ∀ b ∈ s, b < 256) (ht : ∀ b ∈ t, b < 256)
    (h : make_des_key_from_7_bytes s = make_des_key_from_7_bytes t) :
    s = t := by
  rw [make_des_key_eq hs7, make_des_key_eq ht7] at h
  have h' := Except.ok.inj h
  unfold specKeyExpansion at h'
  have hseg : ∀ i, i < 8 →
      fromBytesBE s / 2 ^ (7 * (7 - i)) % 2 ^ 7 =
        fromBytesBE t / 2 ^ (7 * (7 - i)) % 2 ^ 7 := by
    intro i hi
    have e := congrArg (fun l : List Nat => l[i]?) h'
    simp only [List.getElem?_map, List.getElem?_range, hi, if_pos,
      Option.map_some] at e
    have e' := Option.some.inj e
    dsimp only at e'
    split_ifs at e' <;> omega
  have hdig : ∀ j, j < 8 →
      fromBytesBE s / 128 ^ j % 128 = fromBytesBE t / 128 ^ j % 128 := by
    intro j hj
    have hseg' := hseg (7 - j) (by omega)
    have h77 : 7 - (7 - j) = j := by omega
    rw [h77] at hseg'
    have e1 : (2 : Nat) ^ (7 * j) = 128 ^ j := by
      rw [pow_mul]; norm_num
    have e2 : (2 : Nat) ^ 7 = 128 := by norm_num
    rw [e1, e2] at hseg'
    exact hseg'
  have hpow : (256 : Nat) ^ 7 = 128 ^ 8 := by norm_num
  have hn : fromBytesBE s < 128 ^ 8 := by
    have := fromBytesBE_lt hs
    rw [hs7, hpow] at this
    exact this
  have hm : fromBytesBE t < 128 ^ 8 := by
    have := fromBytesBE_lt ht
    rw [ht7, hpow] at this
    exact this
  exact fromBytesBE_inj (by omega) hs ht (digits_ext 128 (by omega) 8 _ _ hn hm hdig)

theorem key_expansion_injective_witness :
    ([0, 1, 2, 3, 4, 5, 6] : List Nat) = [0, 1, 2, 3, 4, 5, 6] :=
  key_expansion_injective [0, 1, 2, 3, 4, 5, 6] [0, 1, 2, 3, 4, 5, 6]
    (by decide) (by decide) (by decide) (by decide) rfl

end MSCHAP
